import Mathlib

/-!
Shallow embedding of `src/main_bill_extract.py` (Smart_Bill repository) and
verification of the frozen claims about it.  Numeric values are modelled as
rationals, strings as Lean `String`/`List Char`.  Python-specific behaviour
(case mapping on the Latin-1 range, `re` scanning with the concrete patterns
appearing in the source, `strptime` against the fixed format list) is embedded
directly; all definitions are executable.
-/

namespace SmartBill

attribute [local semireducible] Rat.add Rat.mul Rat.inv Rat.sub

/-- Python `str.lower` restricted to the ASCII and Latin-1 letter ranges
(the only characters relevant to the keyword tables of the source). -/
def pyLowerChar (c : Char) : Char :=
  if 'A' ≤ c ∧ c ≤ 'Z' then Char.ofNat (c.toNat + 32)
  else if 0xC0 ≤ c.toNat ∧ c.toNat ≤ 0xDE ∧ c.toNat ≠ 0xD7 then Char.ofNat (c.toNat + 32)
  else c

/-- Python `str.upper` on one character (Latin-1 range; `ß` expands to `SS`). -/
def pyUpperCharL (c : Char) : List Char :=
  if 'a' ≤ c ∧ c ≤ 'z' then [Char.ofNat (c.toNat - 32)]
  else if c.toNat = 0xDF then ['S', 'S']
  else if c.toNat = 0xFF then [Char.ofNat 0x178]
  else if 0xE0 ≤ c.toNat ∧ c.toNat ≤ 0xFE ∧ c.toNat ≠ 0xF7 then [Char.ofNat (c.toNat - 32)]
  else [c]

/-- Python `s.lower()`. -/
def pyLower (s : String) : String := String.mk (s.toList.map pyLowerChar)

/-- Python `s.upper()`. -/
def pyUpper (s : String) : String := String.mk ((s.toList.map pyUpperCharL).flatten)

/-- `needle` occurs as a contiguous infix of `hay` (Python `needle in hay`). -/
def infixL : List Char → List Char → Bool
  | n, [] => n.isEmpty
  | n, h :: t => n.isPrefixOf (h :: t) || infixL n t

/-- Python `sub in hay` on strings. -/
def containsS (hay sub : String) : Bool := infixL sub.toList hay.toList

/-- Python `any(x in hay for x in subs)`. -/
def anyContains (hay : String) (subs : List String) : Bool := subs.any (containsS hay)

/-- First `some` produced by `f` along the list (the return-inside-loop
pattern of the source). -/
def firstSome {α β : Type} (f : α → Option β) : List α → Option β
  | [] => none
  | a :: l =>
    match f a with
    | some b => some b
    | none => firstSome f l

/-- Python whitespace characters (`str.strip` / regex `\s`, ASCII part). -/
def isPySpace (c : Char) : Bool :=
  c == ' ' || c == '\t' || c == '\n' || c == '\x0d' || c == '\x0b' || c == '\x0c'

/-- Python `s.strip()`. -/
def trimPy (l : List Char) : List Char :=
  ((l.dropWhile isPySpace).reverse.dropWhile isPySpace).reverse

/-- The test `re.search(r"\d+,\d{2}$", s)`: the string ends with a digit,
a comma, and exactly two digits. -/
def endsCommaTwoDigits (l : List Char) : Bool :=
  match l.reverse with
  | a :: b :: c :: d :: _ => a.isDigit && b.isDigit && c == ',' && d.isDigit
  | _ => false

/-- ASCII-only upper casing used for case-insensitive comparison with the
all-ASCII currency codes of the source regex. -/
def asciiUp (c : Char) : Char :=
  if 'a' ≤ c ∧ c ≤ 'z' then Char.ofNat (c.toNat - 32) else c

/-- Case-insensitive prefix test against an (uppercase) pattern. -/
def ciPrefix (pat : List Char) (l : List Char) : Bool :=
  pat.isPrefixOf (l.map asciiUp)

/-- One pass of `re.sub(r"[₹$€£]|INR|USD|EUR|GBP|BRL|R\$|EUROS?", "", s, re.I)`:
scan left to right, at each position try the alternatives in order, replace a
match by nothing.  The fuel argument is the length of the scanned list. -/
def stripCur : Nat → List Char → List Char
  | 0, l => l
  | _ + 1, [] => []
  | fuel + 1, c :: rest =>
    if c = '₹' ∨ c = '$' ∨ c = '€' ∨ c = '£' then stripCur fuel rest
    else if ciPrefix ['I', 'N', 'R'] (c :: rest) then stripCur fuel (rest.drop 2)
    else if ciPrefix ['U', 'S', 'D'] (c :: rest) then stripCur fuel (rest.drop 2)
    else if ciPrefix ['E', 'U', 'R'] (c :: rest) then stripCur fuel (rest.drop 2)
    else if ciPrefix ['G', 'B', 'P'] (c :: rest) then stripCur fuel (rest.drop 2)
    else if ciPrefix ['B', 'R', 'L'] (c :: rest) then stripCur fuel (rest.drop 2)
    else if ciPrefix ['R', '$'] (c :: rest) then stripCur fuel (rest.drop 1)
    else if ciPrefix ['E', 'U', 'R', 'O', 'S'] (c :: rest) then stripCur fuel (rest.drop 4)
    else if ciPrefix ['E', 'U', 'R', 'O'] (c :: rest) then stripCur fuel (rest.drop 3)
    else c :: stripCur fuel rest

/-- Split a character list at every `'.'` (Python `s.split(".")`). -/
def splitDots : List Char → List (List Char)
  | [] => [[]]
  | '.' :: t => [] :: splitDots t
  | c :: t =>
    match splitDots t with
    | [] => [[c]]
    | h :: r => (c :: h) :: r

/-- The multi-dot collapse of the source: when more than one dot remains,
keep only the final dot as the decimal point. -/
def collapseDots (l : List Char) : List Char :=
  let ps := splitDots l
  if 2 < ps.length then ((ps.dropLast).flatten) ++ '.' :: ps.getLastD []
  else l

/-- Numeric value of a digit string (most significant first). -/
def digitsToNat (l : List Char) : Nat :=
  l.foldl (fun a c => a * 10 + (c.toNat - 48)) 0

/-- Python `float` restricted to the digit/dot strings that survive the
source's character filter. -/
def floatParse (l : List Char) : Option ℚ :=
  if l = [] then none
  else if ¬ l.all (fun c => c.isDigit || c == '.') then none
  else
    match splitDots l with
    | [a] => if a = [] then none else some (digitsToNat a)
    | [a, b] =>
      if a = [] ∧ b = [] then none
      else some ((digitsToNat a : ℚ) + (digitsToNat b : ℚ) / (10 : ℚ) ^ b.length)
    | _ => none

/-- The separator-resolution step of `_parse_amount_str`: strings ending in a
comma and two digits follow the European convention (drop dots, comma becomes
the decimal point), all others merely lose their commas. -/
def sepResolve (s0 : List Char) : List Char :=
  if endsCommaTwoDigits s0 then
    (s0.filter (· != '.')).map (fun c => if c = ',' then '.' else c)
  else s0.filter (· != ',')

/-- Currency removal followed by the `[^0-9\.]` filter of `_parse_amount_str`. -/
def cleanAmount (s1 : List Char) : List Char :=
  (stripCur s1.length s1).filter (fun c => c.isDigit || c == '.')

/-- The final range gate of `_parse_amount_str`: reject nonpositive values and
values above ten million. -/
def rangeGate (o : Option ℚ) : Option ℚ :=
  match o with
  | none => none
  | some v => if v ≤ 0 ∨ v > 10000000 then none else some v

/-- Embedding of `_parse_amount_str` from the source: separator resolution on
the raw (whitespace-stripped) string, currency removal, character filter,
multi-dot collapse, float conversion, and the `(0, 10_000_000]` range gate. -/
def parseAmountStr (s : String) : Option ℚ :=
  if s = "" then none
  else rangeGate (floatParse (collapseDots (cleanAmount (sepResolve (trimPy s.toList)))))

/-- `re.findall(r"[\d,]+(?:\.\d{1,2})?", s)`: scan for maximal digit/comma
runs, optionally followed by a dot and one or two digits (greedy). -/
def amountScan : Nat → List Char → List (List Char)
  | 0, _ => []
  | _ + 1, [] => []
  | fuel + 1, c :: rest =>
    if c.isDigit || c == ',' then
      let run := (c :: rest).takeWhile (fun x => x.isDigit || x == ',')
      let after := (c :: rest).drop run.length
      match after with
      | '.' :: d :: t =>
        if d.isDigit then
          let m := run ++ '.' :: d :: (t.takeWhile Char.isDigit).take 1
          m :: amountScan fuel ((c :: rest).drop m.length)
        else run :: amountScan fuel after
      | _ => run :: amountScan fuel after
    else amountScan fuel rest

/-- The nested `parse_amounts` helper of `extract_total_amount`: find all
amount-shaped substrings of the line with blanks removed and keep the
parseable ones. -/
def parse_amounts (line : String) : List ℚ :=
  let cs := line.toList.filter (· != ' ')
  (amountScan cs.length cs).filterMap (fun m => parseAmountStr (String.mk m))

/-- `prioritized_keywords` of `extract_total_amount`. -/
def prioritizedKeywords : List String :=
  ["grand total", "amount payable", "amount to be paid", "net payable",
   "total payable", "total amount", "balance due", "total bill amount",
   "bill amount", "amount payable from customer", "upi payment",
   "net amt", "net amount", "total",
   "total general", "importe total", "total a pagar", "monto total",
   "valor total", "total líquido", "total factura"]

/-- `invoice_keywords` of `extract_total_amount`. -/
def invoiceKeywords : List String :=
  ["invoice", "inv no", "bill no", "receipt no", "voucher",
   "factura", "recibo", "nota fiscal"]

/-- The base `exclude_tokens` list of `extract_total_amount`. -/
def baseExcludeTokens : List String :=
  ["sub total", "subtotal", "cgst", "sgst", "vat", "tax", "discount",
   "cambio", "impuesto", "descuento"]

/-- `exclude_tokens`, extended by the invoice keywords for the Fuel category. -/
def excludeTokensFor (category : Option String) : List String :=
  baseExcludeTokens ++ (if category = some "Fuel" then invoiceKeywords else [])

/-- The keyword pass of `extract_total_amount`: walk the lines, skip excluded
and (for Fuel) invoice-like lines, and on a keyword line collect every
positive parseable amount of that line and the next two. -/
def kwPass (category : Option String) : List String → List ℚ
  | [] => []
  | l :: rest =>
    let low := pyLower l
    if anyContains low (excludeTokensFor category) then kwPass category rest
    else if anyContains low invoiceKeywords ∧ category = some "Fuel" then kwPass category rest
    else if anyContains low prioritizedKeywords then
      (((l :: rest).take 3).map parse_amounts).flatten.filter (fun a => decide (0 < a))
        ++ kwPass category rest
    else kwPass category rest

/-- The fallback pass of `extract_total_amount`: all parseable amounts above
10 on lines not containing an exclusion token. -/
def fbPass (category : Option String) : List String → List ℚ
  | [] => []
  | l :: rest =>
    if anyContains (pyLower l) (excludeTokensFor category) then fbPass category rest
    else (parse_amounts l).filter (fun a => decide (10 < a)) ++ fbPass category rest

/-- Python `max` on a nonempty list of rationals (0 on the empty list, a case
the source never reaches). -/
def maxQ : List ℚ → ℚ
  | [] => 0
  | a :: r => r.foldl max a

/-- Embedding of `extract_total_amount`.  The `fullTextUpper` argument is kept
because the source signature has it, although the body never reads it. -/
def extract_total_amount (lines : List String) (fullTextUpper : String)
    (category : Option String) : ℚ :=
  let _ := fullTextUpper
  let safe := kwPass category lines
  if safe ≠ [] then maxQ safe
  else
    let fb := fbPass category lines
    if fb ≠ [] then maxQ fb else 0

/-- Regex word character (`\b` boundary test), ASCII part. -/
def isWordChar (c : Char) : Bool := c.isAlpha || c.isDigit || c == '_'

/-- Character class dash/slash/dot/blank of the date patterns. -/
def sepOk (c : Char) : Bool := c == '-' || c == '/' || c == '.' || isPySpace c

/-- `\b` before the first (word) character of a candidate match: the previous
character, when there is one, is not a word character. -/
def boundaryB : Option Char → Bool
  | none => true
  | some c => !isWordChar c

/-- `\b` after the last (word) character of a match. -/
def endBoundary : List Char → Bool
  | [] => true
  | c :: _ => !isWordChar c

/-- Pattern 1, `\b(\d{1,2}<sep>[A-Za-z]{3}<sep>\d{2,4})\b`, matched at
the current position; returns the matched prefix.  Greedy runs with the
trailing `\b` determinize to run-length window checks. -/
def matchP1 (prev : Option Char) (s : List Char) : Option (List Char) :=
  if !boundaryB prev then none
  else
    let d1 := s.takeWhile Char.isDigit
    if d1.length < 1 ∨ 2 < d1.length then none
    else
      match s.drop d1.length with
      | [] => none
      | c1 :: s2 =>
        if !sepOk c1 then none
        else
          let a := s2.takeWhile Char.isAlpha
          if a.length ≠ 3 then none
          else
            match s2.drop 3 with
            | [] => none
            | c2 :: s4 =>
              if !sepOk c2 then none
              else
                let d2 := s4.takeWhile Char.isDigit
                if d2.length < 2 ∨ 4 < d2.length then none
                else if !endBoundary (s4.drop d2.length) then none
                else some (d1 ++ c1 :: (a ++ c2 :: d2))

/-- Pattern 2, `\b(\d{1,2}<sep>\d{1,2}<sep>\d{2,4})\b`. -/
def matchP2 (prev : Option Char) (s : List Char) : Option (List Char) :=
  if !boundaryB prev then none
  else
    let d1 := s.takeWhile Char.isDigit
    if d1.length < 1 ∨ 2 < d1.length then none
    else
      match s.drop d1.length with
      | [] => none
      | c1 :: s2 =>
        if !sepOk c1 then none
        else
          let d2 := s2.takeWhile Char.isDigit
          if d2.length < 1 ∨ 2 < d2.length then none
          else
            match s2.drop d2.length with
            | [] => none
            | c2 :: s4 =>
              if !sepOk c2 then none
              else
                let d3 := s4.takeWhile Char.isDigit
                if d3.length < 2 ∨ 4 < d3.length then none
                else if !endBoundary (s4.drop d3.length) then none
                else some (d1 ++ c1 :: (d2 ++ c2 :: d3))

/-- Pattern 3, `\b(\d{4}<sep>\d{1,2}<sep>\d{1,2})\b`. -/
def matchP3 (prev : Option Char) (s : List Char) : Option (List Char) :=
  if !boundaryB prev then none
  else
    let d1 := s.takeWhile Char.isDigit
    if d1.length ≠ 4 then none
    else
      match s.drop 4 with
      | [] => none
      | c1 :: s2 =>
        if !sepOk c1 then none
        else
          let d2 := s2.takeWhile Char.isDigit
          if d2.length < 1 ∨ 2 < d2.length then none
          else
            match s2.drop d2.length with
            | [] => none
            | c2 :: s4 =>
              if !sepOk c2 then none
              else
                let d3 := s4.takeWhile Char.isDigit
                if d3.length < 1 ∨ 2 < d3.length then none
                else if !endBoundary (s4.drop d3.length) then none
                else some (d1 ++ c1 :: (d2 ++ c2 :: d3))

/-- Pattern 4, `\b(\d{1,2} [A-Za-z]{3,9} \d{2,4})\b` (literal blanks). -/
def matchP4 (prev : Option Char) (s : List Char) : Option (List Char) :=
  if !boundaryB prev then none
  else
    let d1 := s.takeWhile Char.isDigit
    if d1.length < 1 ∨ 2 < d1.length then none
    else
      match s.drop d1.length with
      | [] => none
      | c1 :: s2 =>
        if c1 ≠ ' ' then none
        else
          let a := s2.takeWhile Char.isAlpha
          if a.length < 3 ∨ 9 < a.length then none
          else
            match s2.drop a.length with
            | [] => none
            | c2 :: s4 =>
              if c2 ≠ ' ' then none
              else
                let d2 := s4.takeWhile Char.isDigit
                if d2.length < 2 ∨ 4 < d2.length then none
                else if !endBoundary (s4.drop d2.length) then none
                else some (d1 ++ c1 :: (a ++ c2 :: d2))

/-- Pattern 5, `\b([A-Za-z]{3,9} \d{1,2}, \d{4})\b`. -/
def matchP5 (prev : Option Char) (s : List Char) : Option (List Char) :=
  if !boundaryB prev then none
  else
    let a := s.takeWhile Char.isAlpha
    if a.length < 3 ∨ 9 < a.length then none
    else
      match s.drop a.length with
      | [] => none
      | c1 :: s2 =>
        if c1 ≠ ' ' then none
        else
          let d1 := s2.takeWhile Char.isDigit
          if d1.length < 1 ∨ 2 < d1.length then none
          else
            match s2.drop d1.length with
            | ',' :: ' ' :: s4 =>
              let d2 := s4.takeWhile Char.isDigit
              if d2.length ≠ 4 then none
              else if !endBoundary (s4.drop 4) then none
              else some (a ++ c1 :: (d1 ++ ',' :: ' ' :: d2))
            | _ => none

/-- `re.findall` driver: scan left to right, record each non-overlapping
leftmost match and resume right after it; fuel is the remaining length. -/
def scanAll (m : Option Char → List Char → Option (List Char)) :
    Nat → Option Char → List Char → List (List Char)
  | 0, _, _ => []
  | _ + 1, _, [] => []
  | fuel + 1, prev, c :: rest =>
    match m prev (c :: rest) with
    | some mt =>
      let k := max mt.length 1
      mt :: scanAll m fuel (((c :: rest).take k).getLast?) ((c :: rest).drop k)
    | none => scanAll m fuel (some c) rest

/-- `re.findall(pattern, line)` for one of the five date patterns. -/
def findall (m : Option Char → List Char → Option (List Char)) (s : List Char) :
    List (List Char) :=
  scanAll m s.length none s

/-- ASCII lower casing (case-insensitive month-name comparison). -/
def asciiLow (c : Char) : Char :=
  if 'A' ≤ c ∧ c ≤ 'Z' then Char.ofNat (c.toNat + 32) else c

/-- Full month names recognised by `%B` (locale C), with month numbers. -/
def fullMonths : List (List Char × Nat) :=
  [("january".toList, 1), ("february".toList, 2), ("march".toList, 3),
   ("april".toList, 4), ("may".toList, 5), ("june".toList, 6),
   ("july".toList, 7), ("august".toList, 8), ("september".toList, 9),
   ("october".toList, 10), ("november".toList, 11), ("december".toList, 12)]

/-- Abbreviated month names recognised by `%b`. -/
def abbrMonths : List (List Char × Nat) :=
  [("jan".toList, 1), ("feb".toList, 2), ("mar".toList, 3), ("apr".toList, 4),
   ("may".toList, 5), ("jun".toList, 6), ("jul".toList, 7), ("aug".toList, 8),
   ("sep".toList, 9), ("oct".toList, 10), ("nov".toList, 11), ("dec".toList, 12)]

/-- Case-insensitive month-name directive: consume a listed name. -/
def readMonthName (names : List (List Char × Nat)) (s : List Char) :
    Option (Nat × List Char) :=
  names.findSome? fun p =>
    if p.1.isPrefixOf (s.map asciiLow) then some (p.2, s.drop p.1.length) else none

/-- `%d` directive of CPython `strptime`: `3[01]|[12]\d|0[1-9]|[1-9]`. -/
def readDay : List Char → Option (Nat × List Char)
  | [] => none
  | [a] => if a.isDigit ∧ a ≠ '0' then some (a.toNat - 48, []) else none
  | a :: b :: r =>
    if a.isDigit ∧ b.isDigit then
      let v := (a.toNat - 48) * 10 + (b.toNat - 48)
      if 1 ≤ v ∧ v ≤ 31 then some (v, r)
      else if a ≠ '0' then some (a.toNat - 48, b :: r)
      else none
    else if a.isDigit ∧ a ≠ '0' then some (a.toNat - 48, b :: r)
    else none

/-- `%m` directive: `1[0-2]|0[1-9]|[1-9]`. -/
def readMonth : List Char → Option (Nat × List Char)
  | [] => none
  | [a] => if a.isDigit ∧ a ≠ '0' then some (a.toNat - 48, []) else none
  | a :: b :: r =>
    if a.isDigit ∧ b.isDigit then
      let v := (a.toNat - 48) * 10 + (b.toNat - 48)
      if 1 ≤ v ∧ v ≤ 12 then some (v, r)
      else if a ≠ '0' then some (a.toNat - 48, b :: r)
      else none
    else if a.isDigit ∧ a ≠ '0' then some (a.toNat - 48, b :: r)
    else none

/-- `%Y` directive: exactly four digits. -/
def readYear4 : List Char → Option (Nat × List Char)
  | a :: b :: c :: d :: r =>
    if a.isDigit ∧ b.isDigit ∧ c.isDigit ∧ d.isDigit then
      some ((a.toNat - 48) * 1000 + (b.toNat - 48) * 100 +
            (c.toNat - 48) * 10 + (d.toNat - 48), r)
    else none
  | _ => none

/-- CPython's two-digit-year mapping: `00-68` becomes `20xx`, `69-99`
becomes `19xx`. -/
def y2kMap (yy : Nat) : Nat := if yy ≤ 68 then 2000 + yy else 1900 + yy

/-- `%y` directive: two digits, mapped through `y2kMap`. -/
def readYear2 : List Char → Option (Nat × List Char)
  | a :: b :: r =>
    if a.isDigit ∧ b.isDigit then
      some (y2kMap ((a.toNat - 48) * 10 + (b.toNat - 48)), r)
    else none
  | _ => none

/-- Two-digit-bounded numeric directive (`%H`/`%M`/`%S` shapes): two digits
when the value is within the bound, else a single digit. -/
def readBounded (hi : Nat) : List Char → Option (Nat × List Char)
  | [] => none
  | [a] => if a.isDigit then some (a.toNat - 48, []) else none
  | a :: b :: r =>
    if a.isDigit ∧ b.isDigit then
      let v := (a.toNat - 48) * 10 + (b.toNat - 48)
      if v ≤ hi then some (v, r) else some (a.toNat - 48, b :: r)
    else if a.isDigit then some (a.toNat - 48, b :: r)
    else none

/-- Literal character of a `strptime` format. -/
def expectChar (c : Char) : List Char → Option (List Char)
  | x :: r => if x = c then some r else none
  | [] => none

/-- Gregorian leap year (as Python `calendar`/`datetime`). -/
def isLeap (y : Nat) : Bool := y % 4 == 0 && (y % 100 != 0 || y % 400 == 0)

/-- Days in a month, as validated by the `datetime` constructor. -/
def daysInMonth (y m : Nat) : Nat :=
  if m = 2 then (if isLeap y then 29 else 28)
  else if m = 4 ∨ m = 6 ∨ m = 9 ∨ m = 11 then 30
  else 31

/-- The `datetime(year, month, day)` construction constraints. -/
def validDate (y m d : Nat) : Bool :=
  decide (1 ≤ y ∧ y ≤ 9999 ∧ 1 ≤ m ∧ m ≤ 12 ∧ 1 ≤ d ∧ d ≤ daysInMonth y m)

/-- Formats `%d<sep>%m<sep>%Y-or-%y` and `%d-%b-...` share this shape. -/
def runDMY (sep : Char) (readM : List Char → Option (Nat × List Char))
    (readY : List Char → Option (Nat × List Char)) (s : List Char) :
    Option (Nat × Nat × Nat) := do
  let (d, s1) ← readDay s
  let s2 ← expectChar sep s1
  let (m, s3) ← readM s2
  let s4 ← expectChar sep s3
  let (y, s5) ← readY s4
  if s5 = [] then some (y, m, d) else none

/-- Format `%Y-%m-%d`. -/
def runYMD (s : List Char) : Option (Nat × Nat × Nat) := do
  let (y, s1) ← readYear4 s
  let s2 ← expectChar '-' s1
  let (m, s3) ← readMonth s2
  let s4 ← expectChar '-' s3
  let (d, s5) ← readDay s4
  if s5 = [] then some (y, m, d) else none

/-- Format `%d %B %Y`. -/
def runDFullMY (s : List Char) : Option (Nat × Nat × Nat) := do
  let (d, s1) ← readDay s
  let s2 ← expectChar ' ' s1
  let (m, s3) ← readMonthName fullMonths s2
  let s4 ← expectChar ' ' s3
  let (y, s5) ← readYear4 s4
  if s5 = [] then some (y, m, d) else none

/-- Format `%B %d, %Y`. -/
def runFullMDY (s : List Char) : Option (Nat × Nat × Nat) := do
  let (m, s1) ← readMonthName fullMonths s
  let s2 ← expectChar ' ' s1
  let (d, s3) ← readDay s2
  let s4 ← expectChar ',' s3
  let s5 ← expectChar ' ' s4
  let (y, s6) ← readYear4 s5
  if s6 = [] then some (y, m, d) else none

/-- The ordered `formats` list of `parse_date_safe`: `%d/%m/%Y`, `%d-%m-%Y`,
`%Y-%m-%d`, `%d %B %Y`, `%B %d, %Y`, `%d/%m/%y`, `%d-%m-%y`, `%d-%b-%Y`,
`%d-%b-%y`. -/
def dateFormats : List (List Char → Option (Nat × Nat × Nat)) :=
  [runDMY '/' readMonth readYear4,
   runDMY '-' readMonth readYear4,
   runYMD,
   runDFullMY,
   runFullMDY,
   runDMY '/' readMonth readYear2,
   runDMY '-' readMonth readYear2,
   runDMY '-' (readMonthName abbrMonths) readYear4,
   runDMY '-' (readMonthName abbrMonths) readYear2]

/-- Zero-padded decimal digit characters for `strftime`. -/
def digC (n : Nat) : Char := Char.ofNat (48 + n % 10)

/-- `%m`/`%d` output: two digits, zero padded. -/
def pad2 (n : Nat) : List Char := [digC (n / 10), digC n]

/-- `%Y` output: four digits, zero padded. -/
def pad4 (n : Nat) : List Char := [digC (n / 1000), digC (n / 100), digC (n / 10), digC n]

/-- `dt.strftime("%Y-%m-%d")`. -/
def fmtYMD (y m d : Nat) : String := String.mk (pad4 y ++ '-' :: (pad2 m ++ '-' :: pad2 d))

/-- Embedding of `parse_date_safe` (the current year is a parameter): try the
fixed formats in order; a parse that builds a valid calendar date with year in
`[2010, nowYear + 1]` is returned formatted `YYYY-MM-DD`. -/
def parse_date_safe (nowYear : Nat) (s : String) : Option String :=
  firstSome (fun f =>
    match f s.toList with
    | some (y, m, d) =>
      if validDate y m d then
        if 2010 ≤ y ∧ y ≤ nowYear + 1 then some (fmtYMD y m d) else none
      else none
    | none => none) dateFormats

/-- The five date patterns of `extract_date_from_text`, in source order. -/
def datePatternMatchers : List (Option Char → List Char → Option (List Char)) :=
  [matchP1, matchP2, matchP3, matchP4, matchP5]

/-- The inner two loops of `extract_date_from_text`: first parseable match of
the line, patterns tried in order, matches in scan order. -/
def lineFirstDate (nowYear : Nat) (line : String) : Option String :=
  firstSome (fun m =>
    firstSome (fun mt => parse_date_safe nowYear (String.mk mt)) (findall m line.toList))
    datePatternMatchers

/-- Embedding of `extract_date_from_text`. -/
def extract_date_from_text (nowYear : Nat) (lines : List String) : String :=
  (firstSome (lineFirstDate nowYear) lines).getD "Not Found"

/-- Embedding of `get_safe_date`; `today` is the processing date. -/
def get_safe_date (dateStr : String) (today : Nat × Nat × Nat) : String :=
  let td := fmtYMD today.1 today.2.1 today.2.2
  if dateStr = "" ∨ dateStr = "Not Found" then td
  else
    match runYMD dateStr.toList with
    | some (y, m, d) => if validDate y m d then dateStr else td
    | none => td

/-- An OCR word token: its text and, when the bounding polygon carries a
first normalized vertex with both coordinates, that vertex as `(x, y)`. -/
structure WordTok where
  text : String
  vert : Option (ℚ × ℚ)
deriving DecidableEq, Repr

/-- Floor of a rational as an integer. -/
def ratFloor (q : ℚ) : ℤ := Int.fdiv q.num (q.den : ℤ)

/-- Round half to even (Python `round`). -/
def bankersRound (q : ℚ) : ℤ :=
  let f := ratFloor q
  let r := q - (f : ℚ)
  if r < 1 / 2 then f
  else if 1 / 2 < r then f + 1
  else if f % 2 = 0 then f else f + 1

/-- Python `round(y, 2)`. -/
def round2 (y : ℚ) : ℚ := (bankersRound (y * 100) : ℚ) / 100

/-- A token of `safe_words`: text plus the sort key `(__y, __x)` the source
attaches (`__y` is the first vertex `y` rounded to 2 decimals). -/
structure SortTok where
  text : String
  ky : ℚ
  kx : ℚ
deriving DecidableEq, Repr

/-- `safe_words` of `group_words_into_lines`: tokens with vertex data, keyed. -/
def safeTokens (ws : List WordTok) : List SortTok :=
  ws.filterMap fun w => w.vert.map fun v => ⟨w.text, round2 v.2, v.1⟩

/-- The sort key comparison `(w.__y, w.__x)`, lexicographic. -/
def keyLE (a b : SortTok) : Bool :=
  if a.ky < b.ky then true else if b.ky < a.ky then false else decide (a.kx ≤ b.kx)

/-- Stable insertion: the new token goes after every already placed token
whose key is less than or equal (Python `sorted` is stable). -/
def insertTok (t : SortTok) : List SortTok → List SortTok
  | [] => [t]
  | h :: r => if keyLE h t then h :: insertTok t r else t :: h :: r

/-- Stable insertion sort, processing tokens in input order. -/
def sortAux : List SortTok → List SortTok → List SortTok
  | [], acc => acc
  | t :: r, acc => sortAux r (insertTok t acc)

/-- `sorted(safe_words, key=lambda w: (w.__y, w.__x))`, stable. -/
def sortToks (l : List SortTok) : List SortTok := sortAux l []

/-- The line-building loop of `group_words_into_lines`: a token joins the
current line when its rounded `y` differs from the previous token's by less
than `0.01`, else it starts a new line. -/
def groupAux : List SortTok → Option ℚ → List String → List String
  | [], _, cur => if cur = [] then [] else [String.intercalate " " cur]
  | w :: rest, prevY, cur =>
    let ok := match prevY with
      | none => true
      | some py => |w.ky - py| < 1 / 100
    if ok then groupAux rest (some w.ky) (cur ++ [w.text])
    else String.intercalate " " cur :: groupAux rest (some w.ky) [w.text]

/-- Embedding of `group_words_into_lines`. -/
def group_words_into_lines (ws : List WordTok) : List String :=
  groupAux (sortToks (safeTokens ws)) none []

/-- `purpose_map` of `detect_purpose`, in the explicit iteration order of the
source (keyword lists verbatim, duplicates included). -/
def purposeMap : List (String × List String) :=
  [("Miscellaneous",
    ["HOSPITAL", "CLINIC", "PHARMACY", "MEDICINE", "TABLET", "INJECTION", "LAB", "DIAGNOSTIC",
     "PATHOLOGY", "XRAY", "SCAN", "MRI", "CHEMIST", "DOCTOR", "SURGERY",
     "HOSPITAL", "CLÍNICA", "FARMACIA", "MEDICINA", "TABLETA", "INYECCIÓN", "LABORATORIO",
     "DIAGNÓSTICO", "PATOLOGÍA", "RX", "ESCANEO", "MÉDICO", "DOCTOR", "CIRUGÍA", "QUIRÓFANO",
     "HOSPITAL", "CLÍNICA", "FARMÁCIA", "MEDICAMENTO", "COMPRIMIDO", "INJEÇÃO", "LABORATÓRIO",
     "DIAGNÓSTICO", "PATOLOGIA", "RAIO-X", "EXAME", "MÉDICO", "DOUTOR", "CIRURGIA", "ENFERMARIA"]),
   ("Air",
    ["AIRLINES", "FLIGHT", "TICKET", "BOARDING", "AEROLÍNEA", "VUELO", "BILLETE", "PASSAGEM AÉREA",
     "AVIÓN", "AIR", "VOO", "PASSAGEM"]),
   ("Taxi",
    ["CAB", "TAXI", "AUTO", "RIDE", "UBER", "OLA", "RAPIDO", "BOLT",
     "TAXI", "COLECTIVO", "REMIS", "CORRIDA"]),
   ("Car Rental",
    ["RENTAL", "ZOOMCAR", "HERTZ", "ALQUILER", "ALUGUEL", "COCHE", "CARRO", "CAR RENTAL", "SELF DRIVE"]),
   ("Parking",
    ["PARKING", "TOLL", "GARAGE", "ESTACIONAMIENTO", "PARQUEO", "PARQUEAMENTO"]),
   ("Fuel",
    ["FUEL", "PETROL", "DIESEL", "GAS STATION", "GASOLINA", "COMBUSTÍVEL", "POSTO", "HP", "BPCL", "SHELL", "INDIANOIL"]),
   ("Hotel",
    ["ROOM", "LODGE", "HOTEL", "RESORT", "HOSPEDAJE", "ALOJAMIENTO", "POUSADA", "SUITE", "BOOKING", "EXPEDIA", "MAKEMYTRIP"]),
   ("Entertainment",
    ["MOVIE", "CINEMA", "THEATRE", "CONCERT", "ESPECTÁCULO", "ENTRETENIMIENTO", "DIVERSÃO",
     "SHOW", "EVENTO", "GAMING", "MÚSICA", "NETFLIX", "PRIME", "HOTSTAR", "PVR", "INOX", "BOOKMYSHOW"]),
   ("Supplies",
    ["STATIONERY", "OFFICE", "PAPER", "SUPPLY", "SUMINISTROS", "PAPELERÍA", "ESCRITORIO",
     "INK", "TONER", "CARTRIDGE", "DIARY", "REGISTER", "FILE", "MARKER"])]

/-- `meal_keywords` of `detect_purpose` (dict insertion order: Lunch, Dinner). -/
def mealKeywords : List (String × List String) :=
  [("Lunch",
    ["BREAKFAST", "MORNING MEAL", "TEA", "COFFEE", "SNACKS", "CAFE", "IDLI", "DOSA",
     "POHA", "BREAD", "MILK", "JUICE", "PANCAKE", "OMELETTE", "THALI", "MEAL",
     "MIDDAY", "CAFETERIA", "BUFFET", "VEG", "NON-VEG", "LUNCH BOX",
     "RESTAURANT BILL", "SUBWAY", "KFC", "PIZZA HUT", "DOMINOS",
     "DESAYUNO", "ALMUERZO", "CAFÉ", "PANCAKE", "SOPA", "COMIDA", "CAFETERÍA",
     "RESTAURANTE", "SNACK", "SANDWICH", "BEBIDA", "LUNCHBOX", "ENSALADA", "HAMBURGUESA", "PIZZA",
     "CAFÉ DA MANHÃ", "ALMOÇO", "LANCHES", "SORVETE", "PÃO", "CAFETERIA", "RESTAURANTE",
     "SOPA", "SANDUÍCHE", "BEBIDA", "SALADA", "HAMBÚRGUER", "PIZZA", "SUCO", "FRUTA"]),
   ("Dinner",
    ["DINNER", "SUPPER", "EVENING MEAL", "DINNER COMBO", "FINE DINE", "FOOD COURT",
     "ZOMATO", "SWIGGY", "RESTAURANT", "MEAL", "BUFFET", "SUBWAY", "DOMINOS", "KFC", "PIZZA HUT",
     "CENA", "COMIDA NOCTURNA", "RESTAURANTE", "BUFFET", "FOOD COURT", "ZOMATO", "SWIGGY",
     "DOMINOS", "KFC", "PIZZA HUT", "SUPPER", "MERIENDA", "PLATO PRINCIPAL", "FINE DINING", "SNACKS",
     "JANTAR", "RESTAURANTE", "BUFFET", "FOOD COURT", "ZOMATO", "SWIGGY", "DOMINOS",
     "KFC", "PIZZA HUT", "SUPPER", "LANCHES", "PRATO PRINCIPAL", "FINE DINING", "CEIA", "SNACKS"])]

/-- First table entry one of whose keywords occurs in the uppercased text. -/
def firstKeywordCat (table : List (String × List String)) (tu : String) : Option String :=
  firstSome (fun p => if p.2.any (containsS tu) then some p.1 else none) table

/-- Format `%Y-%m-%d %H:%M:%S`, returning the hour on success (with the
`datetime` constructor constraints checked). -/
def parseYMDHMShour (s : List Char) : Option Nat := do
  let (y, s1) ← readYear4 s
  let s2 ← expectChar '-' s1
  let (m, s3) ← readMonth s2
  let s4 ← expectChar '-' s3
  let (d, s5) ← readDay s4
  let s6 ← expectChar ' ' s5
  let (h, s7) ← readBounded 23 s6
  let s8 ← expectChar ':' s7
  let (_, s9) ← readBounded 59 s8
  let s10 ← expectChar ':' s9
  let (sec, s11) ← readBounded 61 s10
  if s11 = [] ∧ validDate y m d ∧ sec ≤ 59 then some h else none

/-- The `meal_by_time` computation of `detect_purpose`: hour of the expense
date when one parses (`%Y-%m-%d %H:%M:%S`, else `%Y-%m-%d` with hour 0);
before 17:00 is Lunch, at or after is Dinner. -/
def mealByTime (expenseDate : Option String) : Option String :=
  match expenseDate with
  | none => none
  | some s =>
    if s = "" ∨ s = "Not Found" then none
    else
      match parseYMDHMShour s.toList with
      | some h => some (if h < 17 then "Lunch" else "Dinner")
      | none =>
        match runYMD s.toList with
        | some (y, m, d) =>
          if validDate y m d then some (if (0 : Nat) < 17 then "Lunch" else "Dinner")
          else none
        | none => none

/-- Embedding of `detect_purpose`: vendor/domain table first, then meal
keywords, then meal-by-time, then the Miscellaneous default. -/
def detect_purpose (text : String) (expenseDate : Option String) : String :=
  let tu := pyUpper text
  match firstKeywordCat purposeMap tu with
  | some c => c
  | none =>
    match firstKeywordCat mealKeywords tu with
    | some m => m
    | none => (mealByTime expenseDate).getD "Miscellaneous"

/-- Python `language.startswith(pre)`. -/
def langStarts (language pre : String) : Bool :=
  pre.toList.isPrefixOf language.toList

/-- `full_text_upper.replace(" ", "")` of the currency-detection block. -/
def noSpace (s : String) : String := String.mk (s.toList.filter (· != ' '))

/-- The currency-detection block of `extract_expense_info`: symbol/code
branches on the blank-stripped uppercased text, then the GST/INDIA context
check, then the language defaults. -/
def currencyOf (fullTextUpper : String) (language : String) : String :=
  let tns := noSpace fullTextUpper
  if anyContains tns ["₹", "INR", " RS.", " RS "] then "INR"
  else if anyContains tns ["USD", "US$", "US DOLLAR"] ∨
      (containsS tns "$" = true ∧ containsS tns "₹" = false ∧ containsS tns "RS" = false) then "USD"
  else if anyContains tns ["EUR", "€", "EURO"] then "EUR"
  else if anyContains tns ["GBP", "£", "POUND"] then "GBP"
  else if anyContains tns ["BRL", "R$", "REAL"] then "BRL"
  else if containsS fullTextUpper "GST" || containsS fullTextUpper "INDIA" then "INR"
  else if langStarts language "es" then "EUR"
  else if langStarts language "pt" then "BRL"
  else if langStarts language "en" then "USD"
  else "INR"

/-- A request page: the two equally valid word-list keys. -/
structure PageT where
  words : List WordTok
  tokens : List WordTok
deriving Repr

/-- The flat result record of the endpoint. -/
structure ResultT where
  DetectedLanguage : String
  ReimbursementCurrencyCode : String
  ExpenseReportTotal : String
  Purpose : String
  ExpenseDate : String
  SubmitReport : String
deriving DecidableEq, Repr

/-- Endpoint outcome: the success record or the 400 client error. -/
inductive RespT where
  | ok : ResultT → RespT
  | clientError : String → RespT
deriving DecidableEq, Repr

/-- `f"{total:.2f}"` for the nonnegative totals the pipeline produces. -/
def fmt2 (q : ℚ) : String :=
  let n := (bankersRound (q * 100)).toNat
  String.mk (Nat.toDigits 10 (n / 100) ++ '.' :: pad2 (n % 100))

/-- The manual Spanish/Portuguese signal list of the handler. -/
def spanishSignals : List String :=
  ["IVA", "EUROS", "GRACIAS", "FACTURA", "TOTAL", "IMPORTE", "COBRO"]

/-- The word-gathering step of the handler: every page's `words`, and when
that is empty every page's `tokens`. -/
def gatherWords (pages : List PageT) : List WordTok :=
  let ws := (pages.map PageT.words).flatten
  if ws = [] then (pages.map PageT.tokens).flatten else ws

/-- `full_text`: the blank-joined texts of all gathered words. -/
def fullTextOf (words : List WordTok) : String :=
  String.intercalate " " (words.map WordTok.text)

/-- Embedding of the `extract_expense_info` handler.  `today` is the process
date `(year, month, day)` and `detectLang` the external `langdetect` oracle
(`none` models its exception path). -/
def extract_expense_info (pages : List PageT) (today : Nat × Nat × Nat)
    (detectLang : String → Option String) : RespT :=
  let words := gatherWords pages
  if words = [] then RespT.clientError "No OCR words or tokens found."
  else
    let lines := group_words_into_lines words
    let fullText := fullTextOf words
    let ftu := pyUpper fullText
    let language0 := (detectLang fullText).getD "en"
    let language := if anyContains ftu spanishSignals then "es" else language0
    let category := detect_purpose fullText none
    let total := extract_total_amount lines ftu (some category)
    let rawDate := extract_date_from_text today.1 lines
    let expenseDate := get_safe_date rawDate today
    let currency := currencyOf ftu language
    RespT.ok ⟨language, currency, fmt2 total, category, expenseDate, "Y"⟩

/-!  Helper lemmas about the embedded operations. -/

theorem foldl_max_shape (r : List ℚ) : ∀ a : ℚ, r.foldl max a = a ∨ r.foldl max a ∈ r := by
  induction r with
  | nil => intro a; exact Or.inl rfl
  | cons b r ih =>
    intro a
    rcases ih (max a b) with h | h
    · rcases max_choice a b with hm | hm
      · exact Or.inl (by rw [List.foldl_cons, h, hm])
      · exact Or.inr (by rw [List.foldl_cons, h, hm]; exact List.mem_cons_self b r)
    · exact Or.inr (List.mem_cons_of_mem b h)

theorem le_foldl_max (r : List ℚ) : ∀ a x : ℚ, x = a ∨ x ∈ r → x ≤ r.foldl max a := by
  induction r with
  | nil =>
    rintro a x (rfl | h)
    · exact le_refl x
    · cases h
  | cons b r ih =>
    rintro a x (rfl | h)
    · exact le_trans (le_max_left x b) (ih (max x b) _ (Or.inl rfl))
    · rcases List.mem_cons.mp h with rfl | h
      · exact le_trans (le_max_right a x) (ih (max a x) _ (Or.inl rfl))
      · exact ih (max a b) x (Or.inr h)

theorem maxQ_mem (l : List ℚ) (h : l ≠ []) : maxQ l ∈ l := by
  cases l with
  | nil => exact absurd rfl h
  | cons a r =>
    rcases foldl_max_shape r a with h' | h'
    · rw [maxQ, h']; exact List.mem_cons_self a r
    · rw [maxQ]; exact List.mem_cons_of_mem a h'

theorem le_maxQ (l : List ℚ) (x : ℚ) (h : x ∈ l) : x ≤ maxQ l := by
  cases l with
  | nil => cases h
  | cons a r => exact le_foldl_max r a x (List.mem_cons.mp h)

/-- The fallback pass, described independently of the loop: every amount
above 10 parsed from a line without an exclusion token, in line order. -/
def fallbackSet (cat : Option String) (lines : List String) : List ℚ :=
  ((lines.filter fun l => !(anyContains (pyLower l) (excludeTokensFor cat))).map
    fun l => (parse_amounts l).filter fun a => decide (10 < a)).flatten

theorem fbPass_eq (cat : Option String) (ls : List String) :
    fbPass cat ls = fallbackSet cat ls := by
  induction ls with
  | nil => rfl
  | cons l r ih =>
    by_cases h : anyContains (pyLower l) (excludeTokensFor cat) = true
    · simp [fbPass, fallbackSet, h] at ih ⊢; exact ih
    · rw [Bool.not_eq_true] at h
      simp [fbPass, fallbackSet, h] at ih ⊢; exact ih

theorem rangeGate_some (o : Option ℚ) (v : ℚ) (h : rangeGate o = some v) :
    0 < v ∧ v ≤ 10000000 := by
  cases o with
  | none => cases h
  | some w =>
    simp only [rangeGate] at h
    by_cases hc : w ≤ 0 ∨ w > 10000000
    · rw [if_pos hc] at h; cases h
    · rw [if_neg hc] at h
      injection h with h
      subst h
      push_neg at hc
      exact ⟨hc.1, hc.2⟩

theorem infixL_of_prefix {n₁ n₂ : List Char} (hp : n₂ <+: n₁) :
    ∀ {h : List Char}, infixL n₁ h = true → infixL n₂ h = true := by
  intro h
  induction h with
  | nil =>
    intro hi
    rw [infixL, List.isEmpty_iff] at hi
    subst hi
    rw [List.prefix_nil] at hp
    subst hp
    rfl
  | cons c t ih =>
    intro hi
    rw [infixL, Bool.or_eq_true] at hi
    rw [infixL, Bool.or_eq_true]
    rcases hi with hi | hi
    · exact Or.inl (List.isPrefixOf_iff_prefix.mpr
        (hp.trans (List.isPrefixOf_iff_prefix.mp hi)))
    · exact Or.inr (ih hi)

/-!  Claim C1: the fallback behaviour of the Total Extractor. -/

/-- C1 (amended): when the keyword pass collects no candidate, the Total
Extractor returns the maximum of the parseable amounts strictly greater than
10 found on lines without an exclusion token, and `0.00` when that collection
is empty — there is no further pass over the excluded lines or the small
amounts. -/
theorem C1_fallback_behaviour (lines : List String) (ftu : String) (cat : Option String)
    (h : kwPass cat lines = []) :
    (fallbackSet cat lines = [] → extract_total_amount lines ftu cat = 0) ∧
    (fallbackSet cat lines ≠ [] →
      extract_total_amount lines ftu cat ∈ fallbackSet cat lines ∧
      ∀ a ∈ fallbackSet cat lines, a ≤ extract_total_amount lines ftu cat) := by
  have hfb : fbPass cat lines = fallbackSet cat lines := fbPass_eq cat lines
  unfold extract_total_amount
  rw [h, hfb]
  simp only [ne_eq, not_true_eq_false, if_false, ite_not, if_pos rfl]
  constructor
  · intro hF
    simp [hF]
  · intro hF
    rw [if_neg hF]
    exact ⟨maxQ_mem _ hF, fun a ha => le_maxQ _ a ha⟩

/-- C1 witness: on `["abc 15.00", "tax 99.00"]` the keyword pass is empty and
the returned total is the maximum of the fallback collection. -/
theorem C1_fallback_behaviour_w :
    extract_total_amount ["abc 15.00", "tax 99.00"] "" none
        ∈ fallbackSet none ["abc 15.00", "tax 99.00"] ∧
    ∀ a ∈ fallbackSet none ["abc 15.00", "tax 99.00"],
      a ≤ extract_total_amount ["abc 15.00", "tax 99.00"] "" none :=
  (C1_fallback_behaviour ["abc 15.00", "tax 99.00"] "" none (by decide)).2 (by decide)

/-- C1 counterexample: the line `"abc 5.00"` carries the positive parseable
amount `5.00`, contains no exclusion token and no total keyword, yet the
extractor returns `0` — the claimed unfiltered fallback (which would return
`5.00`) does not exist. -/
theorem C1_small_amount_dropped :
    kwPass none ["abc 5.00"] = [] ∧
    anyContains (pyLower "abc 5.00") (excludeTokensFor none) = false ∧
    parse_amounts "abc 5.00" = [5] ∧
    extract_total_amount ["abc 5.00"] "" none = 0 := by decide

/-!  Claim C5: the Amount Parser. -/

/-- Modelled from the spec: the Amount Parser in the order the specification
states it — currency glyphs and codes stripped first, the ambiguous-separator
rule then applied to the already-stripped string.  Used only for comparison
with `parseAmountStr`, which embeds the source order. -/
def specOrderParseAmount (s : String) : Option ℚ :=
  if s = "" then none
  else
    let s0 := trimPy s.toList
    let sC := stripCur s0.length s0
    rangeGate (floatParse (collapseDots
      ((sepResolve sC).filter (fun c => c.isDigit || c == '.'))))

/-- C5 (amended): the Amount Parser resolves separators on the raw string
first (comma is the decimal point exactly when the raw string ends in a comma
and two digits) and strips currency afterwards; every accepted value lies in
`(0, 10_000_000]`, and out-of-range inputs are rejected. -/
theorem C5_range_and_separators :
    (∀ (s : String) (v : ℚ), parseAmountStr s = some v → 0 < v ∧ v ≤ 10000000) ∧
    parseAmountStr "1.234,56" = some (30864 / 25) ∧
    parseAmountStr "1,234.56" = some (30864 / 25) ∧
    parseAmountStr "1,50EUR" = some 150 ∧
    parseAmountStr "€1,50" = some (3 / 2) ∧
    parseAmountStr "0" = none ∧
    parseAmountStr "10000000.01" = none := by
  refine ⟨?_, by decide, by decide, by decide, by decide, by decide, by decide⟩
  intro s v h
  unfold parseAmountStr at h
  by_cases hs : s = ""
  · rw [if_pos hs] at h; cases h
  · rw [if_neg hs] at h
    exact rangeGate_some _ v h

/-- C5 witness: the range bound instantiated on an accepted input. -/
theorem C5_range_and_separators_w : 0 < (150 : ℚ) ∧ (150 : ℚ) ≤ 10000000 :=
  C5_range_and_separators.1 "1,50EUR" 150 (by decide)

/-- C5 counterexample: on `"1,50EUR"` the source parses `150` (the trailing
currency code hides the comma-then-two-digits ending from the raw-string
test), while the spec's strip-first order would parse `1.50`. -/
theorem C5_strip_order_differs :
    parseAmountStr "1,50EUR" = some 150 ∧
    specOrderParseAmount "1,50EUR" = some (3 / 2) ∧
    (150 : ℚ) ≠ 3 / 2 := by decide

/-!  Claim C10: exclusion tokens are raw substrings, so "taxi" is excluded. -/

/-- C10: exclusion-token matching is raw substring matching: every line whose
lowercased text contains `"taxi"` contains the exclusion token `"tax"` and is
therefore skipped by the keyword pass and the first fallback pass, even when
it carries a total keyword and the document's largest parseable amount. -/
theorem C10_taxi_is_excluded :
    (∀ (line : String) (cat : Option String), containsS (pyLower line) "taxi" = true →
      anyContains (pyLower line) (excludeTokensFor cat) = true) ∧
    anyContains (pyLower "Taxi Grand Total 500.00") prioritizedKeywords = true ∧
    parse_amounts "Taxi Grand Total 500.00" = [500] ∧
    kwPass none ["Taxi Grand Total 500.00"] = [] ∧
    fbPass none ["Taxi Grand Total 500.00"] = [] ∧
    extract_total_amount ["Taxi Grand Total 500.00"] "" none = 0 := by
  refine ⟨?_, by decide, by decide, by decide, by decide, by decide⟩
  intro line cat h
  have h3 : containsS (pyLower line) "tax" = true :=
    infixL_of_prefix (by decide) h
  have hmem : "tax" ∈ excludeTokensFor cat :=
    List.mem_append_left _ (by decide)
  rw [anyContains, List.any_eq_true]
  exact ⟨"tax", hmem, h3⟩

/-- C10 witness: a concrete taxi line is excluded for an arbitrary category. -/
theorem C10_taxi_is_excluded_w :
    anyContains (pyLower "TAXI FARE Total 88.00") (excludeTokensFor (some "Hotel")) = true :=
  C10_taxi_is_excluded.1 "TAXI FARE Total 88.00" (some "Hotel") (by decide)

/-!  Claim C2: candidate choice of the Date Extractor. -/

/-- C2 (amended): the Date Extractor returns the first accepted candidate in
line order (patterns tried in their fixed order inside each line); whether a
line carries a date-labeling keyword plays no role. -/
theorem C2_first_accepted (nowYear : Nat) (pre post : List String) (l d : String)
    (h1 : ∀ x ∈ pre, lineFirstDate nowYear x = none)
    (h2 : lineFirstDate nowYear l = some d) :
    extract_date_from_text nowYear (pre ++ l :: post) = d := by
  induction pre with
  | nil =>
    simp only [List.nil_append, extract_date_from_text, firstSome, h2, Option.getD_some]
  | cons x pre ih =>
    have hx : lineFirstDate nowYear x = none := h1 x (List.mem_cons_self x pre)
    have ih' := ih fun y hy => h1 y (List.mem_cons_of_mem x hy)
    simp only [List.cons_append, extract_date_from_text, firstSome, hx] at ih' ⊢
    exact ih'

/-- C2 witness: the first accepted candidate is returned over a dateless
leading line and a later candidate. -/
theorem C2_first_accepted_w :
    extract_date_from_text 2026 ["no date here", "15/08/2023", "01/01/2020"] = "2023-08-15" :=
  C2_first_accepted 2026 ["no date here"] ["01/01/2020"] "15/08/2023" "2023-08-15"
    (by decide) (by decide)

/-- C2 counterexample: an accepted candidate on a line labeled
`"invoice date"` exists, yet the extractor returns the earlier candidate from
an unlabeled line — no keyword preference is applied. -/
theorem C2_keyword_line_ignored :
    extract_date_from_text 2026 ["03/03/2015", "invoice date 04/04/2016"] = "2015-03-03" ∧
    containsS (pyLower "invoice date 04/04/2016") "invoice date" = true ∧
    lineFirstDate 2026 "invoice date 04/04/2016" = some "2016-04-04" ∧
    containsS (pyLower "03/03/2015") "invoice date" = false ∧
    containsS (pyLower "03/03/2015") "bill date" = false ∧
    containsS (pyLower "03/03/2015") "paid on" = false := by decide

/-!  Claim C7: acceptance rule of `parse_date_safe`. -/

theorem firstSome_eq_some {α β : Type} (f : α → Option β) (l : List α) (b : β)
    (h : firstSome f l = some b) : ∃ a ∈ l, f a = some b := by
  induction l with
  | nil => cases h
  | cons x l ih =>
    rw [firstSome] at h
    cases hx : f x with
    | some c =>
      rw [hx] at h
      injection h with h
      subst h
      exact ⟨x, List.mem_cons_self x l, hx⟩
    | none =>
      rw [hx] at h
      obtain ⟨a, ha, hfa⟩ := ih h
      exact ⟨a, List.mem_cons_of_mem x ha, hfa⟩

/-- Modelled from the spec: its description of two-digit-year handling,
namely that a (1900-based) two-digit year below 2000 is normalized by adding
100.  Used only for comparison with the source's `y2kMap`. -/
def specTwoDigitNormalize (yy : Nat) : Nat :=
  if 1900 + yy < 2000 then (1900 + yy) + 100 else 1900 + yy

/-- C7: a date string is accepted only when some format of the fixed list
parses it to a valid calendar date whose year lies in `[2010, nowYear + 1]`;
on that acceptance window the CPython two-digit-year mapping agrees exactly
with the spec's add-100 normalization; `"31-02-2019"` yields no candidate and
`"15-Aug-2023"` yields `2023-08-15`. -/
theorem C7_acceptance (nowYear : Nat) (hnow : nowYear ≤ 2067) :
    (∀ s r, parse_date_safe nowYear s = some r →
      ∃ y m d, validDate y m d = true ∧ 2010 ≤ y ∧ y ≤ nowYear + 1 ∧ r = fmtYMD y m d) ∧
    (∀ yy : Nat, yy < 100 →
      ((2010 ≤ y2kMap yy ∧ y2kMap yy ≤ nowYear + 1) ↔
        (2010 ≤ specTwoDigitNormalize yy ∧ specTwoDigitNormalize yy ≤ nowYear + 1)) ∧
      (2010 ≤ y2kMap yy → y2kMap yy = specTwoDigitNormalize yy)) ∧
    extract_date_from_text nowYear ["31-02-2019"] = "Not Found" ∧
    extract_date_from_text 2026 ["15-Aug-2023"] = "2023-08-15" := by
  refine ⟨?_, ?_, rfl, by decide⟩
  · intro s r h
    obtain ⟨f, _, hf⟩ := firstSome_eq_some _ dateFormats r h
    cases hfs : f s.toList with
    | none => rw [hfs] at hf; cases hf
    | some t =>
      obtain ⟨y, m, d⟩ := t
      rw [hfs] at hf
      dsimp only at hf
      by_cases hv : validDate y m d = true
      · rw [if_pos hv] at hf
        by_cases hr : 2010 ≤ y ∧ y ≤ nowYear + 1
        · rw [if_pos hr] at hf
          injection hf with hf
          exact ⟨y, m, d, hv, hr.1, hr.2, hf.symm⟩
        · rw [if_neg hr] at hf; cases hf
      · rw [if_neg hv] at hf; cases hf
  · intro yy hyy
    unfold y2kMap specTwoDigitNormalize
    constructor
    · split <;> split <;> omega
    · split <;> split <;> omega

/-- C7 witness: the acceptance rule applied at the current year and on the
concrete accepted date. -/
theorem C7_acceptance_w :
    ∃ y m d, validDate y m d = true ∧ 2010 ≤ y ∧ y ≤ 2026 + 1 ∧
      "2023-08-15" = fmtYMD y m d :=
  (C7_acceptance 2026 (by decide)).1 "15-Aug-2023" "2023-08-15" (by decide)

/-!  Claim C4: currency-detection order. -/

theorem infixL_space_free (n : List Char) (hn : ' ' ∈ n) :
    ∀ (h : List Char), (∀ c ∈ h, c ≠ ' ') → infixL n h = false := by
  intro h
  induction h with
  | nil =>
    intro _
    cases n with
    | nil => cases hn
    | cons a t => rfl
  | cons c t ih =>
    intro hh
    rw [infixL]
    have h1 : n.isPrefixOf (c :: t) = false := by
      cases hb : n.isPrefixOf (c :: t) with
      | false => rfl
      | true =>
        have hp := List.isPrefixOf_iff_prefix.mp hb
        exact absurd rfl (hh ' ' (hp.subset hn))
    have h2 : infixL n t = false := ih fun c' hc' => hh c' (List.mem_cons_of_mem c hc')
    rw [h1, h2]
    rfl

theorem noSpace_chars (s : String) : ∀ c ∈ (noSpace s).toList, c ≠ ' ' := by
  intro c hc
  rw [noSpace] at hc
  have hc' : c ∈ s.toList.filter (· != ' ') := hc
  exact bne_iff_ne.mp (List.mem_filter.mp hc').2

theorem containsS_noSpace_spaced (s : String) (sub : String) (hsub : ' ' ∈ sub.toList) :
    containsS (noSpace s) sub = false :=
  infixL_space_free sub.toList hsub (noSpace s).toList (noSpace_chars s)

/-- C4 (amended): currency is determined by checking explicit symbols/codes
first (with the rupee-ambiguity rule: `$` counts as USD only without a
`₹`/`INR`/`RS` signal), then the GST/INDIA local-market context, then the
language defaults Spanish→EUR, Portuguese→BRL, English→USD, otherwise INR;
a text with both `₹` and `$` classifies as INR, and a text with both `GST`
and `€` classifies as EUR because the symbol check precedes the local-market
check. -/
theorem C4_currency_order :
    (∀ ftu lang, containsS (noSpace ftu) "₹" = true → currencyOf ftu lang = "INR") ∧
    (∀ ftu lang, containsS (noSpace ftu) "₹" = false →
      containsS (noSpace ftu) "INR" = false → containsS (noSpace ftu) "RS" = false →
      containsS (noSpace ftu) "$" = true → currencyOf ftu lang = "USD") ∧
    (∀ ftu lang,
      anyContains (noSpace ftu) ["₹", "INR", " RS.", " RS "] = false →
      anyContains (noSpace ftu) ["USD", "US$", "US DOLLAR"] = false →
      containsS (noSpace ftu) "$" = false →
      anyContains (noSpace ftu) ["EUR", "€", "EURO"] = false →
      anyContains (noSpace ftu) ["GBP", "£", "POUND"] = false →
      anyContains (noSpace ftu) ["BRL", "R$", "REAL"] = false →
      ((containsS ftu "GST" = true ∨ containsS ftu "INDIA" = true →
          currencyOf ftu lang = "INR") ∧
       (containsS ftu "GST" = false → containsS ftu "INDIA" = false →
          ((langStarts lang "es" = true → currencyOf ftu lang = "EUR") ∧
           (langStarts lang "es" = false → langStarts lang "pt" = true →
             currencyOf ftu lang = "BRL") ∧
           (langStarts lang "es" = false → langStarts lang "pt" = false →
             langStarts lang "en" = true → currencyOf ftu lang = "USD") ∧
           (langStarts lang "es" = false → langStarts lang "pt" = false →
             langStarts lang "en" = false → currencyOf ftu lang = "INR"))))) ∧
    currencyOf "₹ 100 $" "en" = "INR" ∧
    currencyOf "GST €" "en" = "EUR" := by
  refine ⟨?_, ?_, ?_, by decide, by decide⟩
  · intro ftu lang h
    have h1 : anyContains (noSpace ftu) ["₹", "INR", " RS.", " RS "] = true := by
      rw [anyContains, List.any_eq_true]
      exact ⟨"₹", by decide, h⟩
    simp only [currencyOf]
    rw [if_pos h1]
  · intro ftu lang h1 h2 h3 h4
    have hrs1 : containsS (noSpace ftu) " RS." = false :=
      containsS_noSpace_spaced ftu " RS." (by decide)
    have hrs2 : containsS (noSpace ftu) " RS " = false :=
      containsS_noSpace_spaced ftu " RS " (by decide)
    have hb1 : anyContains (noSpace ftu) ["₹", "INR", " RS.", " RS "] = false := by
      rw [anyContains, List.any_eq_false]
      intro x hx
      simp only [List.mem_cons, List.not_mem_nil, or_false] at hx
      rcases hx with rfl | rfl | rfl | rfl
      · rw [h1]; decide
      · rw [h2]; decide
      · rw [hrs1]; decide
      · rw [hrs2]; decide
    simp only [currencyOf]
    rw [if_neg (by rw [hb1]; decide), if_pos (Or.inr ⟨h4, h1, h3⟩)]
  · intro ftu lang hb1 hb2 hd hb3 hb4 hb5
    have hcond2 : ¬(anyContains (noSpace ftu) ["USD", "US$", "US DOLLAR"] = true ∨
        containsS (noSpace ftu) "$" = true ∧ containsS (noSpace ftu) "₹" = false ∧
        containsS (noSpace ftu) "RS" = false) := by
      rintro (hc | hc)
      · rw [hb2] at hc; cases hc
      · rw [hd] at hc; cases hc.1
    simp only [currencyOf]
    rw [if_neg (by rw [hb1]; decide), if_neg hcond2, if_neg (by rw [hb3]; decide),
      if_neg (by rw [hb4]; decide), if_neg (by rw [hb5]; decide)]
    constructor
    · intro hg
      rcases hg with hg | hg
      · rw [if_pos (show (containsS ftu "GST" || containsS ftu "INDIA") = true by
          rw [hg, Bool.true_or])]
      · rw [if_pos (show (containsS ftu "GST" || containsS ftu "INDIA") = true by
          rw [hg, Bool.or_true])]
    · intro hg1 hg2
      rw [if_neg (by rw [hg1, hg2]; decide)]
      refine ⟨?_, ?_, ?_, ?_⟩
      · intro he; rw [if_pos he]
      · intro he hp; rw [if_neg (by rw [he]; decide), if_pos hp]
      · intro he hp hn
        rw [if_neg (by rw [he]; decide), if_neg (by rw [hp]; decide), if_pos hn]
      · intro he hp hn
        rw [if_neg (by rw [he]; decide), if_neg (by rw [hp]; decide),
          if_neg (by rw [hn]; decide)]

/-- C4 witness: the rupee branch applied to a text carrying both `₹` and `$`. -/
theorem C4_currency_order_w : currencyOf "₹ 5 $ 5" "en" = "INR" :=
  C4_currency_order.1 "₹ 5 $ 5" "en" (by decide)

/-- C4 counterexample: a text with the local-market signal `GST` and the
symbol `€` classifies as EUR — the symbol check runs before the national
tax-scheme check, contradicting the claimed order. -/
theorem C4_gst_after_symbols :
    containsS "GST €100" "GST" = true ∧
    currencyOf "GST €100" "en" = "EUR" ∧
    ("EUR" : String) ≠ "INR" := by decide

/-!  Claim C6: category precedence in `detect_purpose`. -/

/-- C6: the vendor/domain table always wins (whatever the meal keywords or
the expense date say), a meal keyword wins over meal-by-time, the
time-of-day fallback (hour < 17 Lunch, else Dinner) is used only when no
keyword of either kind matches, and `"UBER BREAKFAST"` classifies as Taxi
although a meal keyword matches it. -/
theorem C6_precedence :
    (∀ (t : String) (d : Option String) (c : String),
      firstKeywordCat purposeMap (pyUpper t) = some c → detect_purpose t d = c) ∧
    (∀ (t : String) (d : Option String) (m : String),
      firstKeywordCat purposeMap (pyUpper t) = none →
      firstKeywordCat mealKeywords (pyUpper t) = some m → detect_purpose t d = m) ∧
    (∀ (t : String) (d : Option String),
      firstKeywordCat purposeMap (pyUpper t) = none →
      firstKeywordCat mealKeywords (pyUpper t) = none →
      detect_purpose t d = (mealByTime d).getD "Miscellaneous") ∧
    (∀ (s : String) (h : Nat), parseYMDHMShour s.toList = some h →
      mealByTime (some s) = some (if h < 17 then "Lunch" else "Dinner")) ∧
    detect_purpose "UBER BREAKFAST" none = "Taxi" ∧
    firstKeywordCat mealKeywords (pyUpper "UBER BREAKFAST") = some "Lunch" ∧
    detect_purpose "plain receipt" (some "2023-05-05 16:59:00") = "Lunch" ∧
    detect_purpose "plain receipt" (some "2023-05-05 17:00:00") = "Dinner" := by
  refine ⟨?_, ?_, ?_, ?_, by decide, by decide, by decide, by decide⟩
  · intro t d c h
    simp only [detect_purpose, h]
  · intro t d m h1 h2
    simp only [detect_purpose, h1, h2]
  · intro t d h1 h2
    simp only [detect_purpose, h1, h2]
  · intro s h hp
    have hs1 : s ≠ "Not Found" := by
      rintro rfl
      rw [show parseYMDHMShour "Not Found".toList = none from rfl] at hp
      cases hp
    have hs2 : s ≠ "" := by
      rintro rfl
      rw [show parseYMDHMShour "".toList = none from rfl] at hp
      cases hp
    simp only [mealByTime]
    rw [if_neg (by rintro (hc | hc); exacts [hs2 hc, hs1 hc]), hp]

/-- C6 witness: a vendor keyword overrides a meal keyword and an evening
timestamp. -/
theorem C6_precedence_w :
    detect_purpose "Uber breakfast at night" (some "2024-01-01 20:00:00") = "Taxi" :=
  C6_precedence.1 "Uber breakfast at night" (some "2024-01-01 20:00:00") "Taxi" (by decide)

/-!  Handler-level lemmas for C3 and C9. -/

theorem firstSome_eq_none {α β : Type} (f : α → Option β) (l : List α)
    (h : ∀ a ∈ l, f a = none) : firstSome f l = none := by
  induction l with
  | nil => rfl
  | cons x l ih =>
    rw [firstSome, h x (List.mem_cons_self x l)]
    exact ih fun a ha => h a (List.mem_cons_of_mem x ha)

theorem kwPass_pos (cat : Option String) (ls : List String) :
    ∀ a ∈ kwPass cat ls, 0 < a := by
  induction ls with
  | nil => intro a ha; cases ha
  | cons l rest ih =>
    intro a ha
    simp only [kwPass] at ha
    split_ifs at ha
    · exact ih a ha
    · exact ih a ha
    · rcases List.mem_append.mp ha with h | h
      · exact of_decide_eq_true (List.mem_filter.mp h).2
      · exact ih a h
    · exact ih a ha

theorem fbPass_gt10 (cat : Option String) (ls : List String) :
    ∀ a ∈ fbPass cat ls, 10 < a := by
  induction ls with
  | nil => intro a ha; cases ha
  | cons l rest ih =>
    intro a ha
    simp only [fbPass] at ha
    split_ifs at ha
    · exact ih a ha
    · rcases List.mem_append.mp ha with h | h
      · exact of_decide_eq_true (List.mem_filter.mp h).2
      · exact ih a h

theorem kwPass_nil (cat : Option String) (ls : List String)
    (h : ∀ l ∈ ls, parse_amounts l = []) : kwPass cat ls = [] := by
  induction ls with
  | nil => rfl
  | cons l rest ih =>
    have ih' := ih fun x hx => h x (List.mem_cons_of_mem l hx)
    have hfl : (((l :: rest).take 3).map parse_amounts).flatten = [] := by
      rw [List.flatten_eq_nil_iff]
      intro x hx
      obtain ⟨y, hy, rfl⟩ := List.mem_map.mp hx
      exact h y (List.take_subset 3 (l :: rest) hy)
    simp only [kwPass, hfl]
    split_ifs <;> simp [ih']

theorem fbPass_nil (cat : Option String) (ls : List String)
    (h : ∀ l ∈ ls, parse_amounts l = []) : fbPass cat ls = [] := by
  induction ls with
  | nil => rfl
  | cons l rest ih =>
    have ih' := ih fun x hx => h x (List.mem_cons_of_mem l hx)
    simp only [fbPass, h l (List.mem_cons_self l rest)]
    split_ifs <;> simp [ih']

theorem extract_total_zero (ls : List String) (ftu : String) (cat : Option String)
    (h : ∀ l ∈ ls, parse_amounts l = []) : extract_total_amount ls ftu cat = 0 := by
  simp only [extract_total_amount, kwPass_nil cat ls h, fbPass_nil cat ls h,
    ne_eq, not_true_eq_false, if_false]

theorem extract_total_nonneg (ls : List String) (ftu : String) (cat : Option String) :
    0 ≤ extract_total_amount ls ftu cat := by
  simp only [extract_total_amount]
  by_cases h1 : kwPass cat ls = []
  · rw [h1]
    simp only [ne_eq, not_true_eq_false, if_false]
    by_cases h2 : fbPass cat ls = []
    · rw [h2]; simp
    · rw [if_pos h2]
      exact le_of_lt (lt_trans (by norm_num)
        (fbPass_gt10 cat ls _ (maxQ_mem _ h2)))
  · rw [if_pos h1]
    exact le_of_lt (kwPass_pos cat ls _ (maxQ_mem _ h1))

theorem daysInMonth_le (y m : Nat) : daysInMonth y m ≤ 31 := by
  unfold daysInMonth
  split_ifs <;> norm_num

theorem digC_isDigit (n : Nat) : (digC n).isDigit = true := by
  have h : n % 10 < 10 := Nat.mod_lt _ (by norm_num)
  unfold digC
  set k := n % 10 with hk
  interval_cases k <;> decide

theorem digC_val (n : Nat) : (digC n).toNat - 48 = n % 10 := by
  have h : n % 10 < 10 := Nat.mod_lt _ (by norm_num)
  unfold digC
  set k := n % 10 with hk
  interval_cases k <;> decide

theorem readYear4_pad4 (y : Nat) (r : List Char) (hy : y ≤ 9999) :
    readYear4 (pad4 y ++ r) = some (y, r) := by
  simp only [pad4, List.cons_append, List.nil_append, readYear4]
  rw [if_pos ⟨digC_isDigit _, digC_isDigit _, digC_isDigit _, digC_isDigit _⟩]
  rw [digC_val, digC_val, digC_val, digC_val]
  have hv : y / 1000 % 10 * 1000 + y / 100 % 10 * 100 + y / 10 % 10 * 10 + y % 10 = y := by
    omega
  rw [hv]

theorem readMonth_pad2 (m : Nat) (r : List Char) (h1 : 1 ≤ m) (h2 : m ≤ 12) :
    readMonth (pad2 m ++ r) = some (m, r) := by
  simp only [pad2, List.cons_append, List.nil_append, readMonth]
  rw [if_pos ⟨digC_isDigit _, digC_isDigit _⟩]
  rw [digC_val, digC_val]
  have hv : m / 10 % 10 * 10 + m % 10 = m := by omega
  rw [hv, if_pos ⟨h1, h2⟩]

theorem readDay_pad2 (d : Nat) (r : List Char) (h1 : 1 ≤ d) (h2 : d ≤ 31) :
    readDay (pad2 d ++ r) = some (d, r) := by
  simp only [pad2, List.cons_append, List.nil_append, readDay]
  rw [if_pos ⟨digC_isDigit _, digC_isDigit _⟩]
  rw [digC_val, digC_val]
  have hv : d / 10 % 10 * 10 + d % 10 = d := by omega
  rw [hv, if_pos ⟨h1, h2⟩]

theorem expectChar_cons (c : Char) (r : List Char) : expectChar c (c :: r) = some r := by
  simp [expectChar]

theorem runYMD_fmtYMD (y m d : Nat) (hv : validDate y m d = true) :
    runYMD (fmtYMD y m d).toList = some (y, m, d) := by
  have hb := of_decide_eq_true hv
  have hd31 : d ≤ 31 := le_trans hb.2.2.2.2.2 (daysInMonth_le y m)
  show runYMD (pad4 y ++ '-' :: (pad2 m ++ '-' :: pad2 d)) = some (y, m, d)
  simp only [runYMD, readYear4_pad4 y _ hb.2.1, Option.bind_eq_bind, Option.some_bind,
    expectChar_cons, readMonth_pad2 m _ hb.2.2.1 hb.2.2.2.1]
  rw [show pad2 d = pad2 d ++ ([] : List Char) from (List.append_nil _).symm,
    readDay_pad2 d [] hb.2.2.2.2.1 hd31]
  rfl

theorem fmtYMD_ne_notFound (y m d : Nat) : fmtYMD y m d ≠ "Not Found" := by
  intro h
  have h10 : (fmtYMD y m d).length = 10 := rfl
  rw [h] at h10
  exact absurd h10 (by decide)

/-!  Claim C3: no delegation — the handler always returns the local result. -/

/-- C3 (amended): the handler never forwards a request anywhere: for every
well-formed request — in particular one whose detected language is Spanish or
Portuguese — the response is the success record whose every field is computed
by the local extraction pipeline. -/
theorem C3_local_result (pages : List PageT) (today : Nat × Nat × Nat)
    (detectLang : String → Option String) (hw : gatherWords pages ≠ []) :
    ∃ r : ResultT, extract_expense_info pages today detectLang = RespT.ok r ∧
      r.Purpose = detect_purpose (fullTextOf (gatherWords pages)) none ∧
      r.ExpenseReportTotal = fmt2 (extract_total_amount
        (group_words_into_lines (gatherWords pages))
        (pyUpper (fullTextOf (gatherWords pages))) (some r.Purpose)) ∧
      r.ExpenseDate = get_safe_date
        (extract_date_from_text today.1 (group_words_into_lines (gatherWords pages))) today ∧
      r.ReimbursementCurrencyCode =
        currencyOf (pyUpper (fullTextOf (gatherWords pages))) r.DetectedLanguage ∧
      r.SubmitReport = "Y" := by
  simp only [extract_expense_info]
  rw [if_neg hw]
  exact ⟨_, rfl, rfl, rfl, rfl, rfl, rfl⟩

/-- C3 witness: the local-result theorem applied to a concrete request whose
detected language is forced to Spanish by the `FACTURA`/`TOTAL` signals. -/
theorem C3_local_result_w :
    ∃ r : ResultT,
      extract_expense_info
        [⟨[⟨"FACTURA", some (0, 0)⟩, ⟨"TOTAL", some (1/10, 0)⟩,
           ⟨"100.00", some (1/5, 0)⟩], []⟩] (2026, 10, 12) (fun _ => none) = RespT.ok r ∧
      r.Purpose = detect_purpose (fullTextOf (gatherWords
        [⟨[⟨"FACTURA", some (0, 0)⟩, ⟨"TOTAL", some (1/10, 0)⟩,
           ⟨"100.00", some (1/5, 0)⟩], []⟩])) none ∧
      r.ExpenseReportTotal = fmt2 (extract_total_amount
        (group_words_into_lines (gatherWords
          [⟨[⟨"FACTURA", some (0, 0)⟩, ⟨"TOTAL", some (1/10, 0)⟩,
             ⟨"100.00", some (1/5, 0)⟩], []⟩]))
        (pyUpper (fullTextOf (gatherWords
          [⟨[⟨"FACTURA", some (0, 0)⟩, ⟨"TOTAL", some (1/10, 0)⟩,
             ⟨"100.00", some (1/5, 0)⟩], []⟩]))) (some r.Purpose)) ∧
      r.ExpenseDate = get_safe_date
        (extract_date_from_text (2026, 10, 12).1 (group_words_into_lines (gatherWords
          [⟨[⟨"FACTURA", some (0, 0)⟩, ⟨"TOTAL", some (1/10, 0)⟩,
             ⟨"100.00", some (1/5, 0)⟩], []⟩]))) (2026, 10, 12) ∧
      r.ReimbursementCurrencyCode =
        currencyOf (pyUpper (fullTextOf (gatherWords
          [⟨[⟨"FACTURA", some (0, 0)⟩, ⟨"TOTAL", some (1/10, 0)⟩,
             ⟨"100.00", some (1/5, 0)⟩], []⟩]))) r.DetectedLanguage ∧
      r.SubmitReport = "Y" :=
  C3_local_result
    [⟨[⟨"FACTURA", some (0, 0)⟩, ⟨"TOTAL", some (1/10, 0)⟩,
       ⟨"100.00", some (1/5, 0)⟩], []⟩] (2026, 10, 12) (fun _ => none) (by decide)

/-- C3 counterexample: a request whose text carries the Spanish signals is
answered with the locally-extracted record (language "es", locally computed
total, category, date and currency) — nothing is forwarded or relayed. -/
theorem C3_no_delegation :
    extract_expense_info
      [⟨[⟨"FACTURA", some (0, 0)⟩, ⟨"TOTAL", some (1/10, 0)⟩,
         ⟨"100.00", some (1/5, 0)⟩], []⟩] (2026, 10, 12) (fun _ => none) =
      RespT.ok ⟨"es", "EUR", "100.00", "Miscellaneous", "2026-10-12", "Y"⟩ ∧
    fmt2 (extract_total_amount ["FACTURA TOTAL 100.00"]
      "FACTURA TOTAL 100.00" (some "Miscellaneous")) = "100.00" ∧
    get_safe_date "Not Found" (2026, 10, 12) = "2026-10-12" ∧
    detect_purpose "FACTURA TOTAL 100.00" none = "Miscellaneous" ∧
    currencyOf "FACTURA TOTAL 100.00" "es" = "EUR" := by decide

/-!  Claim C9: defaults when no evidence is found. -/

/-- C9: a well-formed request with no parseable amount on any line, no
accepted date candidate on any line, and no category keyword in the text is
answered successfully with total `"0.00"`, the processing date (a valid
`YYYY-MM-DD` string, never the `"Not Found"` sentinel) and purpose
`"Miscellaneous"`; moreover the extracted total is nonnegative for every
input whatsoever. -/
theorem C9_defaults (pages : List PageT) (today : Nat × Nat × Nat)
    (detectLang : String → Option String)
    (hw : gatherWords pages ≠ [])
    (hamt : ∀ l ∈ group_words_into_lines (gatherWords pages), parse_amounts l = [])
    (hdate : ∀ l ∈ group_words_into_lines (gatherWords pages),
      lineFirstDate today.1 l = none)
    (hvendor : firstKeywordCat purposeMap (pyUpper (fullTextOf (gatherWords pages))) = none)
    (hmeal : firstKeywordCat mealKeywords (pyUpper (fullTextOf (gatherWords pages))) = none) :
    (∃ r : ResultT, extract_expense_info pages today detectLang = RespT.ok r ∧
      r.ExpenseReportTotal = "0.00" ∧
      r.ExpenseDate = fmtYMD today.1 today.2.1 today.2.2 ∧
      r.ExpenseDate ≠ "Not Found" ∧
      r.Purpose = "Miscellaneous") ∧
    (validDate today.1 today.2.1 today.2.2 = true →
      runYMD (fmtYMD today.1 today.2.1 today.2.2).toList =
        some (today.1, today.2.1, today.2.2)) ∧
    (∀ ls ftu cat, 0 ≤ extract_total_amount ls ftu cat) := by
  refine ⟨?_, fun hv => runYMD_fmtYMD _ _ _ hv, extract_total_nonneg⟩
  have htot : extract_total_amount (group_words_into_lines (gatherWords pages))
      (pyUpper (fullTextOf (gatherWords pages)))
      (some (detect_purpose (fullTextOf (gatherWords pages)) none)) = 0 :=
    extract_total_zero _ _ _ hamt
  have hdt : extract_date_from_text today.1 (group_words_into_lines (gatherWords pages)) =
      "Not Found" := by
    rw [extract_date_from_text, firstSome_eq_none _ _ hdate]
    rfl
  have hpur : detect_purpose (fullTextOf (gatherWords pages)) none = "Miscellaneous" := by
    simp only [detect_purpose, hvendor, hmeal]
    rfl
  simp only [extract_expense_info]
  rw [if_neg hw]
  refine ⟨_, rfl, ?_, ?_, ?_, ?_⟩
  · show fmt2 (extract_total_amount _ _ _) = "0.00"
    rw [htot]
    decide
  · show get_safe_date (extract_date_from_text today.1 _) today = _
    rw [hdt]
    simp [get_safe_date]
  · show get_safe_date (extract_date_from_text today.1 _) today ≠ "Not Found"
    rw [hdt]
    simp only [get_safe_date, if_pos (Or.inr rfl)]
    exact fmtYMD_ne_notFound _ _ _
  · exact hpur

/-- C9 witness: the defaults on a concrete evidence-free request. -/
theorem C9_defaults_w :
    ∃ r : ResultT,
      extract_expense_info [⟨[⟨"hello world", some (0, 0)⟩], []⟩] (2026, 10, 12)
        (fun _ => none) = RespT.ok r ∧
      r.ExpenseReportTotal = "0.00" ∧
      r.ExpenseDate = fmtYMD (2026, 10, 12).1 (2026, 10, 12).2.1 (2026, 10, 12).2.2 ∧
      r.ExpenseDate ≠ "Not Found" ∧
      r.Purpose = "Miscellaneous" :=
  (C9_defaults [⟨[⟨"hello world", some (0, 0)⟩], []⟩] (2026, 10, 12) (fun _ => none)
    (by decide) (by decide) (by decide) (by decide) (by decide)).1

/-!  Claim C8: stability of line reconstruction under token reordering. -/

/-- The sort key of a keyed token. -/
def keyOf (t : SortTok) : ℚ × ℚ := (t.ky, t.kx)

theorem keyLE_iff (a b : SortTok) :
    keyLE a b = true ↔ (a.ky < b.ky ∨ (a.ky = b.ky ∧ a.kx ≤ b.kx)) := by
  unfold keyLE
  split_ifs with h1 h2
  · simp [h1]
  · constructor
    · intro hc; cases hc
    · rintro (hc | ⟨hc, _⟩)
      · exact absurd hc h1
      · exact absurd h2 (by rw [hc]; exact lt_irrefl _)
  · have heq : a.ky = b.ky := le_antisymm (le_of_not_lt h2) (le_of_not_lt h1)
    rw [decide_eq_true_eq]
    constructor
    · intro h; exact Or.inr ⟨heq, h⟩
    · rintro (hc | ⟨_, hc⟩)
      · exact absurd hc h1
      · exact hc

theorem keyLE_total (a b : SortTok) : keyLE a b = true ∨ keyLE b a = true := by
  rw [keyLE_iff, keyLE_iff]
  rcases lt_trichotomy a.ky b.ky with h | h | h
  · exact Or.inl (Or.inl h)
  · rcases le_total a.kx b.kx with h' | h'
    · exact Or.inl (Or.inr ⟨h, h'⟩)
    · exact Or.inr (Or.inr ⟨h.symm, h'⟩)
  · exact Or.inr (Or.inl h)

theorem keyLE_trans (a b c : SortTok) (h1 : keyLE a b = true) (h2 : keyLE b c = true) :
    keyLE a c = true := by
  rw [keyLE_iff] at h1 h2 ⊢
  rcases h1 with h1 | ⟨h1, h1'⟩ <;> rcases h2 with h2 | ⟨h2, h2'⟩
  · exact Or.inl (lt_trans h1 h2)
  · exact Or.inl (h2 ▸ h1)
  · exact Or.inl (h1 ▸ h2)
  · exact Or.inr ⟨h1.trans h2, h1'.trans h2'⟩

theorem keyLE_antisymm (a b : SortTok) (h1 : keyLE a b = true) (h2 : keyLE b a = true) :
    keyOf a = keyOf b := by
  rw [keyLE_iff] at h1 h2
  unfold keyOf
  rcases h1 with h1 | ⟨h1, h1'⟩ <;> rcases h2 with h2 | ⟨h2, h2'⟩
  · exact absurd h2 (lt_asymm h1)
  · exact absurd h1 (by rw [h2]; exact lt_irrefl _)
  · exact absurd h2 (by rw [h1]; exact lt_irrefl _)
  · rw [h1, le_antisymm h1' h2']

/-- Strict key order: the sorted relation together with distinct keys. -/
def keyLT (a b : SortTok) : Prop := keyLE a b = true ∧ keyOf a ≠ keyOf b

theorem keyLT_asymm (a b : SortTok) (h1 : keyLT a b) (h2 : keyLT b a) : False :=
  h1.2 (keyLE_antisymm a b h1.1 h2.1)

theorem insertTok_mem (t : SortTok) (l : List SortTok) (x : SortTok)
    (h : x ∈ insertTok t l) : x = t ∨ x ∈ l := by
  induction l with
  | nil =>
    rw [insertTok] at h
    rcases List.mem_cons.mp h with h | h
    · exact Or.inl h
    · cases h
  | cons a r ih =>
    rw [insertTok] at h
    split_ifs at h
    · rcases List.mem_cons.mp h with h | h
      · exact Or.inr (h ▸ List.mem_cons_self a r)
      · rcases ih h with h' | h'
        · exact Or.inl h'
        · exact Or.inr (List.mem_cons_of_mem a h')
    · rcases List.mem_cons.mp h with h | h
      · exact Or.inl h
      · exact Or.inr h

theorem insertTok_perm (t : SortTok) (l : List SortTok) :
    (insertTok t l).Perm (t :: l) := by
  induction l with
  | nil => exact List.Perm.refl _
  | cons a r ih =>
    rw [insertTok]
    split_ifs
    · exact (ih.cons a).trans (List.Perm.swap t a r)
    · exact List.Perm.refl _

theorem insertTok_sorted (t : SortTok) (l : List SortTok)
    (h : l.Pairwise fun a b => keyLE a b = true) :
    (insertTok t l).Pairwise fun a b => keyLE a b = true := by
  induction l with
  | nil => simp [insertTok]
  | cons a r ih =>
    rw [insertTok]
    rcases List.pairwise_cons.mp h with ⟨ha, hr⟩
    split_ifs with hle
    · refine List.pairwise_cons.mpr ⟨?_, ih hr⟩
      intro x hx
      rcases insertTok_mem t r x hx with rfl | hx'
      · exact hle
      · exact ha x hx'
    · refine List.pairwise_cons.mpr ⟨?_, h⟩
      intro x hx
      have hta : keyLE t a = true := by
        rcases keyLE_total a t with h' | h'
        · exact absurd h' hle
        · exact h'
      rcases List.mem_cons.mp hx with rfl | hx'
      · exact hta
      · exact keyLE_trans t a x hta (ha x hx')

theorem sortAux_perm (l : List SortTok) :
    ∀ acc, (sortAux l acc).Perm (l ++ acc) := by
  induction l with
  | nil => intro acc; exact List.Perm.refl _
  | cons t r ih =>
    intro acc
    rw [sortAux]
    exact ((ih (insertTok t acc)).trans
      ((insertTok_perm t acc).append_left r)).trans List.perm_middle

theorem sortAux_sorted (l : List SortTok) :
    ∀ acc, acc.Pairwise (fun a b => keyLE a b = true) →
      (sortAux l acc).Pairwise fun a b => keyLE a b = true := by
  induction l with
  | nil => intro acc h; exact h
  | cons t r ih =>
    intro acc h
    rw [sortAux]
    exact ih _ (insertTok_sorted t acc h)

theorem sortToks_perm (l : List SortTok) : (sortToks l).Perm l := by
  rw [sortToks]
  exact (sortAux_perm l []).trans (by rw [List.append_nil])

theorem sortToks_sorted (l : List SortTok) :
    (sortToks l).Pairwise fun a b => keyLE a b = true :=
  sortAux_sorted l [] (List.Pairwise.nil)

theorem pairwise_strict (l : List SortTok)
    (h : l.Pairwise fun a b => keyLE a b = true)
    (hnd : (l.map keyOf).Nodup) : l.Pairwise keyLT := by
  have hne : l.Pairwise fun a b => keyOf a ≠ keyOf b := List.pairwise_map.mp hnd
  exact (h.and hne).imp fun hx => ⟨hx.1, hx.2⟩

theorem sorted_strict_unique (l₁ : List SortTok) :
    ∀ l₂, l₁.Perm l₂ → l₁.Pairwise keyLT → l₂.Pairwise keyLT → l₁ = l₂ := by
  induction l₁ with
  | nil =>
    intro l₂ hp _ _
    exact (hp.symm.eq_nil).symm
  | cons a t₁ ih =>
    intro l₂ hp hp1 hp2
    cases l₂ with
    | nil => cases hp.eq_nil
    | cons b t₂ =>
      have hab : a = b := by
        have ha2 : a ∈ b :: t₂ := hp.mem_iff.mp (List.mem_cons_self a t₁)
        rcases List.mem_cons.mp ha2 with h | h
        · exact h
        · have hba : keyLT b a := (List.pairwise_cons.mp hp2).1 a h
          have hb1 : b ∈ a :: t₁ := hp.symm.mem_iff.mp (List.mem_cons_self b t₂)
          rcases List.mem_cons.mp hb1 with h' | h'
          · exact h'.symm
          · exact (keyLT_asymm a b ((List.pairwise_cons.mp hp1).1 b h') hba).elim
      subst hab
      rw [ih t₂ hp.cons_inv (List.pairwise_cons.mp hp1).2 (List.pairwise_cons.mp hp2).2]

/-- C8 (amended): line reconstruction is stable under token reordering
provided no two position-carrying tokens share the same rounded `(y, x)`
sort key; with a shared key, stable sorting preserves input order and the
output can differ. -/
theorem C8_reorder_stable (ws1 ws2 : List WordTok) (hp : ws1.Perm ws2)
    (hnd : ((safeTokens ws1).map keyOf).Nodup) :
    group_words_into_lines ws1 = group_words_into_lines ws2 := by
  have hps : (safeTokens ws1).Perm (safeTokens ws2) := hp.filterMap _
  have hnds1 : ((sortToks (safeTokens ws1)).map keyOf).Nodup :=
    (((sortToks_perm (safeTokens ws1)).map keyOf).nodup_iff).mpr hnd
  have hnds2 : ((sortToks (safeTokens ws2)).map keyOf).Nodup :=
    (((sortToks_perm (safeTokens ws2)).map keyOf).nodup_iff).mpr
      (((hps.map keyOf).nodup_iff).mp hnd)
  have hsort : sortToks (safeTokens ws1) = sortToks (safeTokens ws2) :=
    sorted_strict_unique _ _
      ((sortToks_perm _).trans (hps.trans (sortToks_perm _).symm))
      (pairwise_strict _ (sortToks_sorted _) hnds1)
      (pairwise_strict _ (sortToks_sorted _) hnds2)
  unfold group_words_into_lines
  rw [hsort]

/-- C8 witness: reordering two tokens with distinct keys leaves the
reconstructed lines unchanged. -/
theorem C8_reorder_stable_w :
    group_words_into_lines [⟨"A", some (0, 0)⟩, ⟨"B", some (1/2, 0)⟩] =
      group_words_into_lines [⟨"B", some (1/2, 0)⟩, ⟨"A", some (0, 0)⟩] :=
  C8_reorder_stable [⟨"A", some (0, 0)⟩, ⟨"B", some (1/2, 0)⟩]
    [⟨"B", some (1/2, 0)⟩, ⟨"A", some (0, 0)⟩]
    (List.Perm.swap _ _ _) (by decide)

/-- C8 counterexample: two distinct tokens sharing the same rounded `(y, x)`
key keep their input order under the stable sort, so permuting them changes
the reconstructed line. -/
theorem C8_shared_key_unstable :
    ([⟨"A", some (0, 0)⟩, ⟨"B", some (0, 0)⟩] : List WordTok).Perm
      [⟨"B", some (0, 0)⟩, ⟨"A", some (0, 0)⟩] ∧
    group_words_into_lines [⟨"A", some (0, 0)⟩, ⟨"B", some (0, 0)⟩] ≠
      group_words_into_lines [⟨"B", some (0, 0)⟩, ⟨"A", some (0, 0)⟩] :=
  ⟨List.Perm.swap _ _ _, by decide⟩

end SmartBill
